import Mathlib

/-! # Power monitor for the Xilinx ZCU104: verification development

Shallow embedding of `main.cpp` (the filesystem backend, namespace `Fs`) and
`main2.cpp` (the libsensors backend, namespace `Lib`).

* `std::string` and `fs::path` are `String`; `std::vector<T>` is `List T`,
  `push_back` appends at the end.
* `int` is `Int`; the only arithmetic on an `int` is the post-increment of the
  loop counter, modelled with an explicit two's-complement wrap (`wrap32`) and a
  flag recording that the increment left the range of `int`.
* `double` values are exact dyadic rationals (`Double`), division and the `%f`
  rendering of `std::to_string` round to nearest, ties to even.
* The outside world (clock, files, libsensors) is an explicit argument, and
  everything the program does to it is recorded as a list of `Event`s.
* `MonitorINASensors` may loop forever, so it is modelled by the state reached
  after a given number of passes through the `while (1)` loop.
-/

set_option maxRecDepth 100000

namespace PowerMonitor

/-! ## Definitions shared by both programs -/

/-- The struct `Config` (identical in both files). -/
structure Config where
  interval_ : Int
  max_iter_ : Int
  list_ : Bool
deriving DecidableEq, Repr

/-- The constructor `Config()`: interval 100 ms, unbounded, no listing. -/
def Config.init : Config := ⟨100, -1, false⟩

/-- The largest value of a 32-bit `int`. -/
def INT_MAX : Int := 2147483647

/-- The value a 32-bit two's-complement register holds for the integer `z`. -/
def wrap32 (z : Int) : Int := (z + 2147483648) % 4294967296 - 2147483648

/-- `EXIT_SUCCESS` of cstdlib. -/
def EXIT_SUCCESS : Int := 0

/-- `EXIT_FAILURE` of cstdlib. -/
def EXIT_FAILURE : Int := 1

/-- What the program does to the outside world, in program order. -/
inductive Event where
  /-- Output of `std::cerr << line << '\n'`. -/
  | write (line : String)
  /-- An `std::ifstream` opened on the path and read once (`ReadSensor`). -/
  | read (path : String)
  /-- A call `sensors_get_value(chip, feat_nr, &value)`; the chip is named by its path. -/
  | get_value (chip_path : String) (feat_nr : Int)
  /-- A call `std::this_thread::sleep_for(milliseconds(ms))`. -/
  | sleep (ms : Int)
  /-- A call `sensors_cleanup()`. -/
  | cleanup
deriving DecidableEq, Repr

/-- `std::copy(b, std::prev(e), std::ostream_iterator<V>(buffer, delimiter))`:
every copied element is written to the buffer followed by the delimiter. -/
def copyDelimited (buffer delimiter : String) : List String → String
  | [] => buffer
  | v :: vs => copyDelimited (buffer ++ v ++ delimiter) delimiter vs

/-- The template `Join` (main.cpp 70-89, main2.cpp 61-80): when the range is not
empty, all elements but the last are copied with a trailing delimiter and the
last one is written alone; an empty range leaves the buffer empty. -/
def Join (values : List String) (delimiter : String) : String :=
  match values.getLast? with
  | none => ""
  | some last => copyDelimited "" delimiter values.dropLast ++ last

/-- A `double`: a finite value is `(-1)^neg * mant * 2^exp`. -/
inductive Double where
  | finite (neg : Bool) (mant : Nat) (exp : Int)
  | inf (neg : Bool)
  | nan (neg : Bool)
deriving DecidableEq, Repr

/-- The integer nearest to `num / den`, ties to the even one. -/
def roundHalfEven (num den : Nat) : Nat :=
  let q := num / den
  let r := num % den
  if den < 2 * r ∨ (2 * r = den ∧ q % 2 = 1) then q + 1 else q

/-- Number of binary digits of `n`, by repeated halving (at most `fuel` times). -/
def bitLengthAux : Nat → Nat → Nat
  | 0, _ => 0
  | fuel + 1, n => if n = 0 then 0 else 1 + bitLengthAux fuel (n / 2)

/-- Number of binary digits of `n`. -/
def bitLength (n : Nat) : Nat := bitLengthAux n n

/-- The expression `x / d` of the source for an `int` `x` and a `double`
constant `d` that is a positive integer (`1e3`, `1e6`): `x` converts to `double`
exactly and the quotient is rounded to 53 significant bits, ties to even. -/
def intDivDouble (x : Int) (d : Nat) : Double :=
  if x = 0 then Double.finite false 0 0
  else
    let k := 53 + bitLength d
    let num := x.natAbs * 2 ^ k
    let s := bitLength (num / d) - 53
    Double.finite (decide (x < 0)) (roundHalfEven num (d * 2 ^ s)) ((s : Int) - (k : Int))

/-- The decimal digits of `k`, padded with zeros on the left to six places. -/
def pad6 (k : Nat) : List Char :=
  let ds := Nat.toDigits 10 k
  List.replicate (6 - ds.length) '0' ++ ds

/-- The sign of a printed number. -/
def signText (neg : Bool) : String := if neg then "-" else ""

/-- The function `std::to_string(double)`, that is `printf` with `%f`: the value
rounded to six decimals (ties to even on the exact binary value), printed as
integer part, a dot and six digits. -/
def to_string : Double → String
  | Double.finite neg mant exp =>
    let n := if 0 ≤ exp then mant * 2 ^ exp.toNat * 1000000
             else roundHalfEven (mant * 1000000) (2 ^ (-exp).toNat)
    signText neg ++ String.mk (Nat.toDigits 10 (n / 1000000)) ++ "." ++ String.mk (pad6 (n % 1000000))
  | Double.inf neg => signText neg ++ "inf"
  | Double.nan neg => signText neg ++ "nan"

/-- The local variables of `MonitorINASensors` that live across passes of the
`while (1)` loop, with the trace of events so far. -/
structure LoopState where
  /-- The counter `int iter`. -/
  iter : Int
  /-- Number of rows written so far. -/
  tick : Nat
  /-- Events so far, oldest first. -/
  out : List Event
  /-- Some `iter++` was evaluated with `iter = INT_MAX` (signed overflow). -/
  overflow : Bool
  /-- The `break` was taken: the function has returned. -/
  done : Bool
deriving DecidableEq, Repr

/-- The body of the loop after the `break` test (main.cpp 243-262, main2.cpp
225-240): the row of this tick is built, joined with commas and written, then
the thread sleeps. `row t` gives the fields of tick `t` and the backend reads
made to obtain them. -/
def loopBody (conf : Config) (row : Nat → List String × List Event) (s : LoopState) : LoopState :=
  { s with
    tick := s.tick + 1
    out := s.out ++ (row s.tick).2 ++ [Event.write (Join (row s.tick).1 ","), Event.sleep conf.interval_] }

/-- One pass through `while (1)` (main.cpp 239-263, main2.cpp 221-241). The test
`conf.max_iter_ >= 0 && iter++ >= conf.max_iter_` short-circuits: the counter is
incremented only when `max_iter_ >= 0`, and then on every evaluation, the one
that breaks included; the old value is the one compared. -/
def loopPass (conf : Config) (row : Nat → List String × List Event) (s : LoopState) : LoopState :=
  if s.done then s
  else if 0 ≤ conf.max_iter_ then
    let s1 := { s with iter := wrap32 (s.iter + 1), overflow := s.overflow || decide (INT_MAX < s.iter + 1) }
    if conf.max_iter_ ≤ s.iter then { s1 with done := true }
    else loopBody conf row s1
  else loopBody conf row s

/-- The function `MonitorINASensors` up to its row builder: the header is
written, `iter` starts at 0, and the loop is run for `passes` passes. -/
def monitor (conf : Config) (header : List String) (row : Nat → List String × List Event)
    (passes : Nat) : LoopState :=
  (loopPass conf row)^[passes]
    { iter := 0, tick := 0, out := [Event.write (Join header ",")], overflow := false, done := false }

/-- The lines written to `std::cerr` in a trace. -/
def written : List Event → List String
  | [] => []
  | Event.write line :: es => line :: written es
  | _ :: es => written es

/-- Splitting a text at every occurrence of a separator character. -/
def splitChars (sep : Char) : List Char → List (List Char)
  | [] => [[]]
  | c :: cs =>
    if c = sep then [] :: splitChars sep cs
    else match splitChars sep cs with
      | [] => [[c]]
      | f :: fs => (c :: f) :: fs

/-- Splitting a string at every occurrence of a separator character. -/
def Split (s : String) (sep : Char) : List String := (splitChars sep s.data).map String.mk

/-- The wording of the specification for `Join`: the elements in order, with the
delimiter between each pair of consecutive elements and nowhere else. -/
def joinSpec (delimiter : String) : List String → String
  | [] => ""
  | [v] => v
  | v :: w :: vs => v ++ delimiter ++ joinSpec delimiter (w :: vs)

/-- The events of tick `t`: the backend reads, the row written, the sleep. -/
def tickEvents (conf : Config) (row : Nat → List String × List Event) (t : Nat) : List Event :=
  (row t).2 ++ [Event.write (Join (row t).1 ","), Event.sleep conf.interval_]

/-- The events of the ticks `0, ..., k - 1`, in order. -/
def ticksTrace (conf : Config) (row : Nat → List String × List Event) : Nat → List Event
  | 0 => []
  | k + 1 => ticksTrace conf row k ++ tickEvents conf row k

/-! ## main.cpp: the filesystem backend -/

namespace Fs

/-- The struct `INASensor` of main.cpp. -/
structure INASensor where
  path_base_ : String
  name_ : String
  path_current_ : Option String
  path_voltage_ : Option String
  path_power_ : Option String
deriving DecidableEq, Repr

/-- The comparison `operator<` on sensors (main.cpp 33-36): the base paths are
compared. All base paths are entries of the one directory `/sys/class/hwmon`,
for which the comparison of `fs::path` is the lexicographic comparison of the
characters of the path. -/
def INASensor.lt (lhs rhs : INASensor) : Prop := lhs.path_base_.data < rhs.path_base_.data

instance INASensor.decLt : DecidableRel INASensor.lt :=
  fun lhs rhs => inferInstanceAs (Decidable (lhs.path_base_.data < rhs.path_base_.data))

/-- The order `std::sort` works with: `rhs` is not less than `lhs`. -/
def INASensor.le (lhs rhs : INASensor) : Prop := ¬ INASensor.lt rhs lhs

instance INASensor.decLe : DecidableRel INASensor.le :=
  fun lhs rhs => inferInstanceAs (Decidable (¬ INASensor.lt rhs lhs))

/-- What an `std::ifstream` finds at a path. -/
inductive FileState where
  /-- The file cannot be opened. -/
  | unopenable
  /-- The file opens and holds this text. -/
  | content (text : String)
deriving DecidableEq, Repr

/-- The function `isspace` in the C locale. -/
def isspace (c : Char) : Bool :=
  c = ' ' || c = '\t' || c = '\n' || c = '\x0b' || c = '\x0c' || c = '\r'

/-- The value of a decimal digit string, most significant digit first. -/
def digitsValue (ds : List Char) : Nat := ds.foldl (fun acc c => 10 * acc + (c.toNat - 48)) 0

/-- The extraction `f >> x` for an `int` on text that starts with a
non-space character: an optional sign and the longest run of digits are
converted; no digit gives 0, a value out of range gives the nearest bound. -/
def extractInt (s : List Char) : Int :=
  let body := match s with
    | '-' :: r => (true, r)
    | '+' :: r => (false, r)
    | _ => (false, s)
  let ds := body.2.takeWhile Char.isDigit
  if ds = [] then 0
  else
    let v : Int := if body.1 then -(digitsValue ds : Int) else (digitsValue ds : Int)
    if INT_MAX < v then INT_MAX else if v < -INT_MAX - 1 then -INT_MAX - 1 else v

/-- The instance `ReadSensor<int>` (main.cpp 92-100). When the stream cannot be
opened, or holds nothing but white space, the extraction does not touch `x`,
which is returned uninitialised: `stale` stands for that indeterminate value. -/
def ReadSensorInt (stale : Int) : FileState → Int
  | FileState.unopenable => stale
  | FileState.content text =>
    match text.data.dropWhile isspace with
    | [] => stale
    | c :: cs => extractInt (c :: cs)

/-- The instance `ReadSensor<std::string>`: leading white space is skipped and
the characters up to the next white space are returned; `x` starts out empty
and stays so when nothing is extracted. -/
def ReadSensorString : FileState → String
  | FileState.unopenable => ""
  | FileState.content text =>
    String.mk ((text.data.dropWhile isspace).takeWhile (fun c => !isspace c))

/-- The search of `std::string::rfind` from index `i` downwards. -/
def rfindFrom (s pat : List Char) : Nat → Option Nat
  | 0 => if pat.isPrefixOf s then some 0 else none
  | i + 1 => if pat.isPrefixOf (s.drop (i + 1)) then some (i + 1) else rfindFrom s pat i

/-- The call `s.rfind(pat, pos)`: the largest index not above `pos` at which
`pat` occurs in `s`, or `none` for `npos`. -/
def rfind (s pat : String) (pos : Nat) : Option Nat :=
  if pat.length ≤ s.length then rfindFrom s.data pat.data (min pos (s.length - pat.length))
  else none

/-- The operator `/` of `fs::path` applied to a file name: a separator is
inserted unless the left side is empty or already ends with one. -/
def pathAppend (p name : String) : String :=
  if p.data = [] ∨ p.data.getLast? = some '/' then p ++ name else p ++ "/" ++ name

/-- The state of `/sys/class/hwmon` seen by `ScanINASensors`. -/
structure Snapshot where
  /-- The paths `fs::directory_iterator(kPath)` yields, in the order it yields them. -/
  entries : List String
  /-- The predicate `fs::is_directory`. -/
  is_directory : String → Bool
  /-- The predicate `fs::is_regular_file`. -/
  is_regular_file : String → Bool
  /-- What opening a path for reading finds. -/
  file : String → FileState

/-- The sensor name read for a directory (main.cpp 172-175): the `name` file is
read when it is a regular file, otherwise the name stays empty. -/
def sensorName (snap : Snapshot) (dir : String) : String :=
  if snap.is_regular_file (pathAppend dir "name") then ReadSensorString (snap.file (pathAppend dir "name"))
  else ""

/-- The optional path of a sub-reading (main.cpp 182-192): set exactly when the
file is a regular file. -/
def probe (snap : Snapshot) (dir file : String) : Option String :=
  if snap.is_regular_file (pathAppend dir file) then some (pathAppend dir file) else none

/-- The sensor built for a directory by the body of the scan loop. -/
def sensorOf (snap : Snapshot) (dir : String) : INASensor :=
  { path_base_ := dir
    name_ := sensorName snap dir
    path_current_ := probe snap dir "curr1_input"
    path_voltage_ := probe snap dir "in2_input"
    path_power_ := probe snap dir "power1_input" }

/-- One pass of the loop of `ScanINASensors` (main.cpp 165-199) over the
directory entry `dir`, with its three `continue` statements. -/
def scanStep (snap : Snapshot) (sensors : List INASensor) (dir : String) : List INASensor :=
  if !snap.is_directory dir then sensors
  else
    let sensor := sensorOf snap dir
    if rfind sensor.name_ "ina" 0 ≠ some 0 then sensors
    else if !(sensor.path_current_.isSome || sensor.path_voltage_.isSome || sensor.path_power_.isSome) then
      sensors
    else sensors ++ [sensor]

/-- The function `ScanINASensors` of main.cpp (159-205): the loop over the
directory entries, then `std::sort` with `operator<`. -/
def ScanINASensors (snap : Snapshot) : List INASensor :=
  (snap.entries.foldl (scanStep snap) []).insertionSort INASensor.le

/-- The function `ListINASensors` of main.cpp (208-214). -/
def ListINASensors (sensors : List INASensor) : List Event :=
  sensors.map (fun sensor => Event.write ("Path: " ++ sensor.path_base_ ++ ", " ++ "Name: " ++ sensor.name_))

/-- One pass of the header loop (main.cpp 225-232). -/
def headerStep (values : List String) (sensor : INASensor) : List String :=
  let values := if sensor.path_current_.isSome then values ++ [sensor.name_ ++ "-Curr(A)"] else values
  let values := if sensor.path_voltage_.isSome then values ++ [sensor.name_ ++ "-Voltage(V)"] else values
  if sensor.path_power_.isSome then values ++ [sensor.name_ ++ "-Power(W)"] else values

/-- The vector `values` joined into the header (main.cpp 221-232). -/
def headerColumns (sensors : List INASensor) : List String :=
  sensors.foldl headerStep ["Time"]

/-- The world `MonitorINASensors` of main.cpp runs in. -/
structure World where
  /-- The result of `GetTimestamp()` in tick `t`. -/
  clock : Nat → String
  /-- What opening a path finds during tick `t`. -/
  file : Nat → String → FileState
  /-- The indeterminate content of the uninitialised `x` of a read in tick `t`. -/
  stale : Nat → String → Int

/-- A field pushed for a sub-reading (main.cpp 248-256): nothing when the path
is absent, otherwise `std::to_string(ReadSensor<int>(path) / divisor)`. -/
def pushReading (w : World) (t : Nat) (divisor : Nat) (path : Option String)
    (acc : List String × List Event) : List String × List Event :=
  match path with
  | none => acc
  | some p =>
    (acc.1 ++ [to_string (intDivDouble (ReadSensorInt (w.stale t p) (w.file t p)) divisor)],
     acc.2 ++ [Event.read p])

/-- One pass of the row loop (main.cpp 246-257): current and voltage divided by
`1e3`, power by `1e6`. -/
def rowStep (w : World) (t : Nat) (acc : List String × List Event) (sensor : INASensor) :
    List String × List Event :=
  pushReading w t 1000000 sensor.path_power_
    (pushReading w t 1000 sensor.path_voltage_
      (pushReading w t 1000 sensor.path_current_ acc))

/-- The vector `values` joined into the row of tick `t` (main.cpp 244-257), and
the reads made on the way; `values` is empty when a tick starts (cleared at
lines 236 and 260), so the timestamp is its first element. -/
def rowValues (w : World) (sensors : List INASensor) (t : Nat) : List String × List Event :=
  sensors.foldl (rowStep w t) ([w.clock t], [])

/-- The function `MonitorINASensors` of main.cpp (217-264), run for `passes`
passes of its loop. -/
def MonitorINASensors (conf : Config) (sensors : List INASensor) (w : World) (passes : Nat) : LoopState :=
  monitor conf (headerColumns sensors) (rowValues w sensors) passes

/-- The function `main` of main.cpp (266-289) after `GetConfig` returned `conf`:
the exit status (`none` while the monitor loop has not returned within `passes`
passes) and the trace. -/
def main (conf : Config) (snap : Snapshot) (w : World) (passes : Nat) : Option Int × List Event :=
  let sensors := ScanINASensors snap
  if sensors.isEmpty then (some EXIT_FAILURE, [Event.write "Power monitor is not found"])
  else if conf.list_ then (some EXIT_SUCCESS, ListINASensors sensors)
  else
    let s := MonitorINASensors conf sensors w passes
    (if s.done then some EXIT_SUCCESS else none, s.out)

/-- The wording of the specification for the header: the columns of one sensor,
one per present sub-reading, current then voltage then power. -/
def columnsOf (sensor : INASensor) : List String :=
  (if sensor.path_current_.isSome then [sensor.name_ ++ "-Curr(A)"] else [])
  ++ (if sensor.path_voltage_.isSome then [sensor.name_ ++ "-Voltage(V)"] else [])
  ++ (if sensor.path_power_.isSome then [sensor.name_ ++ "-Power(W)"] else [])

/-- The wording of the specification for the header: the columns of all
sensors, in list order (the leading `Time` column is not included). -/
def sensorColumns : List INASensor → List String
  | [] => []
  | sensor :: rest => columnsOf sensor ++ sensorColumns rest

/-- The number of present sub-readings of a sensor. -/
def presentCount (sensor : INASensor) : Nat :=
  (if sensor.path_current_.isSome then 1 else 0)
  + (if sensor.path_voltage_.isSome then 1 else 0)
  + (if sensor.path_power_.isSome then 1 else 0)

/-- The field of one present sub-reading in tick `t`. -/
def fieldOf (w : World) (t : Nat) (divisor : Nat) (p : String) : String :=
  to_string (intDivDouble (ReadSensorInt (w.stale t p) (w.file t p)) divisor)

/-- The fields of one sensor in tick `t`, one per present sub-reading. -/
def fieldsOf (w : World) (t : Nat) (sensor : INASensor) : List String :=
  (sensor.path_current_.toList.map (fieldOf w t 1000))
  ++ (sensor.path_voltage_.toList.map (fieldOf w t 1000))
  ++ (sensor.path_power_.toList.map (fieldOf w t 1000000))

/-- The fields of all sensors in tick `t`, in list order (the leading timestamp
is not included). -/
def sensorFields (w : World) (t : Nat) : List INASensor → List String
  | [] => []
  | sensor :: rest => fieldsOf w t sensor ++ sensorFields w t rest

/-- A sensor named `ina0` with a current and a power file and no voltage file. -/
def ina0 : INASensor :=
  { path_base_ := "/sys/class/hwmon/hwmon0"
    name_ := "ina0"
    path_current_ := some "/sys/class/hwmon/hwmon0/curr1_input"
    path_voltage_ := none
    path_power_ := some "/sys/class/hwmon/hwmon0/power1_input" }

/-- A clock for examples: tick `t` is stamped `t` followed by its number. -/
def tickClock (t : Nat) : String := "t" ++ String.mk (Nat.toDigits 10 t)

/-- A world in which every file always holds the text `n/a`. -/
def garbledWorld : World :=
  { clock := tickClock
    file := fun _ _ => FileState.content "n/a\n"
    stale := fun _ _ => 0 }

/-- A world in which the current file holds 150000 and the power file 2500000,
except that in tick 3 the current file cannot be opened (the uninitialised
`x` then happens to hold 7). -/
def transientWorld : World :=
  { clock := tickClock
    file := fun t p =>
      if p = "/sys/class/hwmon/hwmon0/curr1_input" then
        (if t = 3 then FileState.unopenable else FileState.content "150000\n")
      else FileState.content "2500000\n"
    stale := fun _ _ => 7 }

/-- A world in which the current file always holds 150000 and the power file
always holds 2500000. -/
def steadyWorld : World :=
  { clock := tickClock
    file := fun _ p =>
      if p = "/sys/class/hwmon/hwmon0/curr1_input" then FileState.content "150000\n"
      else FileState.content "2500000\n"
    stale := fun _ _ => 0 }

/-- The wording of the specification for discovery: a directory entry is
retained when it is a directory, its name begins with `ina` and at least one of
the three sub-reading files is present. -/
def keeps (snap : Snapshot) (dir : String) : Bool :=
  snap.is_directory dir
  && "ina".data.isPrefixOf (sensorName snap dir).data
  && (snap.is_regular_file (pathAppend dir "curr1_input")
      || snap.is_regular_file (pathAppend dir "in2_input")
      || snap.is_regular_file (pathAppend dir "power1_input"))

/-- The wording of the specification for discovery: the sensors of the retained
directory entries, in enumeration order (before sorting). -/
def retained (snap : Snapshot) : List INASensor :=
  (snap.entries.filter (keeps snap)).map (sensorOf snap)

/-- The same backend state enumerated in another order. -/
def Snapshot.reordered (snap : Snapshot) (entries : List String) : Snapshot :=
  { snap with entries := entries }

/-- An example backend: `hwmon0` is an `ina226` with current and power files,
`hwmon1` is an `ina226` with a voltage file only, `hwmon2` is a `coretemp`
device, `hwmon3` is an `ina226` without any of the three files, `hwmon4` has no
name file. The iterator yields them out of order. -/
def exampleSnapshot : Snapshot :=
  { entries := ["/sys/class/hwmon/hwmon1", "/sys/class/hwmon/hwmon4", "/sys/class/hwmon/hwmon2",
                "/sys/class/hwmon/hwmon0", "/sys/class/hwmon/hwmon3"]
    is_directory := fun _ => true
    is_regular_file := fun p =>
      p = "/sys/class/hwmon/hwmon0/name" || p = "/sys/class/hwmon/hwmon0/curr1_input"
      || p = "/sys/class/hwmon/hwmon0/power1_input"
      || p = "/sys/class/hwmon/hwmon1/name" || p = "/sys/class/hwmon/hwmon1/in2_input"
      || p = "/sys/class/hwmon/hwmon2/name" || p = "/sys/class/hwmon/hwmon2/curr1_input"
      || p = "/sys/class/hwmon/hwmon3/name"
      || p = "/sys/class/hwmon/hwmon4/power1_input"
    file := fun p =>
      if p = "/sys/class/hwmon/hwmon2/name" then FileState.content "coretemp\n"
      else FileState.content "ina226\n" }

/-- The entries of the example backend in another order. -/
def exampleReorder : List String :=
  ["/sys/class/hwmon/hwmon0", "/sys/class/hwmon/hwmon1", "/sys/class/hwmon/hwmon2",
   "/sys/class/hwmon/hwmon3", "/sys/class/hwmon/hwmon4"]

/-- The two sensors the example backend yields, in ascending order of path. -/
def exampleSensors : List INASensor :=
  [{ path_base_ := "/sys/class/hwmon/hwmon0", name_ := "ina226",
     path_current_ := some "/sys/class/hwmon/hwmon0/curr1_input", path_voltage_ := none,
     path_power_ := some "/sys/class/hwmon/hwmon0/power1_input" },
   { path_base_ := "/sys/class/hwmon/hwmon1", name_ := "ina226",
     path_current_ := none, path_voltage_ := some "/sys/class/hwmon/hwmon1/in2_input",
     path_power_ := none }]

end Fs

/-! ## main2.cpp: the libsensors backend -/

namespace Lib

/-- The fields of `sensors_chip_name` the program uses. -/
structure Chip where
  prefix_ : String
  path : String
deriving DecidableEq, Repr

/-- The enumeration `sensors_feature_type`, as far as the program tells its values apart. -/
inductive FeatureType where
  | IN
  | CURR
  | POWER
  | other (code : Nat)
deriving DecidableEq, Repr

/-- The enumeration `sensors_subfeature_type`, as far as the program tells its values apart. -/
inductive SubfeatureType where
  | IN_INPUT
  | CURR_INPUT
  | POWER_INPUT
  | other (code : Nat)
deriving DecidableEq, Repr

/-- The fields of `sensors_subfeature` the program uses. -/
structure Subfeature where
  type : SubfeatureType
  number : Int
deriving DecidableEq, Repr

/-- The fields of `sensors_feature` the program uses, with its subfeatures. -/
structure Feature where
  name : String
  type : FeatureType
  subfeatures : List Subfeature
deriving DecidableEq, Repr

/-- The struct `INASensor` of main2.cpp. -/
structure INASensor where
  name_ : Chip
  feat_nr_ : Int
  unit_ : String
  label_ : String
deriving DecidableEq, Repr

/-- The function `strncmp` of cstring on strings without embedded NUL. -/
def strncmp : List Char → List Char → Nat → Int
  | _, _, 0 => 0
  | [], [], _ + 1 => 0
  | [], d :: _, _ + 1 => -(d.toNat : Int)
  | c :: _, [], _ + 1 => (c.toNat : Int)
  | c :: cs, d :: ds, n + 1 => if c = d then strncmp cs ds n else (c.toNat : Int) - (d.toNat : Int)

/-- The function `sensors_get_subfeature`: the first subfeature of the given type, if any. -/
def sensors_get_subfeature (feat : Feature) (type : SubfeatureType) : Option Subfeature :=
  feat.subfeatures.find? (fun sf => decide (sf.type = type))

/-- The subfeature and unit chosen for a feature (main2.cpp 163-178). -/
def selectSubfeature (feat : Feature) : Option Subfeature × String :=
  match feat.type with
  | FeatureType.CURR => (sensors_get_subfeature feat SubfeatureType.CURR_INPUT, "A")
  | FeatureType.IN => (sensors_get_subfeature feat SubfeatureType.IN_INPUT, "V")
  | FeatureType.POWER => (sensors_get_subfeature feat SubfeatureType.POWER_INPUT, "W")
  | FeatureType.other _ => (none, "")

/-- One pass of the inner loop of `ScanINASensors` (main2.cpp 157-189). -/
def featureStep (chip : Chip) (sensors : List INASensor) (feat : Feature) : List INASensor :=
  match selectSubfeature feat with
  | (none, _) => sensors
  | (some subfeat, unit) =>
    sensors ++ [{ name_ := chip, feat_nr_ := subfeat.number, unit_ := unit,
                  label_ := chip.prefix_ ++ "-" ++ feat.name }]

/-- One pass of the outer loop of `ScanINASensors` (main2.cpp 148-190). -/
def chipStep (sensors : List INASensor) (chip : Chip × List Feature) : List INASensor :=
  if strncmp chip.1.prefix_.data "ina".data 3 ≠ 0 then sensors
  else chip.2.foldl (featureStep chip.1) sensors

/-- The function `ScanINASensors` of main2.cpp (139-193) over the detected chips
and their features, in the order libsensors enumerates them. -/
def ScanINASensors (chips : List (Chip × List Feature)) : List INASensor :=
  chips.foldl chipStep []

/-- The function `ListINASensors` of main2.cpp (196-202). -/
def ListINASensors (sensors : List INASensor) : List Event :=
  sensors.map (fun sensor => Event.write ("Path: " ++ sensor.name_.path ++ ", " ++ "Name: " ++ sensor.label_))

/-- The vector `values` joined into the header (main2.cpp 209-214). -/
def headerColumns (sensors : List INASensor) : List String :=
  sensors.foldl (fun values sensor => values ++ [sensor.label_ ++ "(" ++ sensor.unit_ ++ ")"]) ["Time"]

/-- The world `MonitorINASensors` of main2.cpp runs in. -/
structure World where
  /-- The result of `GetTimestamp()` in tick `t`. -/
  clock : Nat → String
  /-- The return code of `sensors_get_value` in tick `t` and the value it stores. -/
  get_value : Nat → Chip → Int → Int × Double

/-- One pass of the row loop (main2.cpp 228-235): an empty field when
`sensors_get_value` does not return 0, the formatted value otherwise. -/
def rowStep (w : World) (t : Nat) (acc : List String × List Event) (sensor : INASensor) :
    List String × List Event :=
  (acc.1 ++ [if (w.get_value t sensor.name_ sensor.feat_nr_).1 ≠ 0 then ""
             else to_string (w.get_value t sensor.name_ sensor.feat_nr_).2],
   acc.2 ++ [Event.get_value sensor.name_.path sensor.feat_nr_])

/-- The vector `values` joined into the row of tick `t` (main2.cpp 226-235), and
the reads made on the way; `values` is empty when a tick starts (cleared at
lines 218 and 238), so the timestamp is its first element. -/
def rowValues (w : World) (sensors : List INASensor) (t : Nat) : List String × List Event :=
  sensors.foldl (rowStep w t) ([w.clock t], [])

/-- The function `MonitorINASensors` of main2.cpp (205-242), run for `passes`
passes of its loop. -/
def MonitorINASensors (conf : Config) (sensors : List INASensor) (w : World) (passes : Nat) : LoopState :=
  monitor conf (headerColumns sensors) (rowValues w sensors) passes

/-- The function `main` of main2.cpp (244-272) after `GetConfig` returned
`conf`; `init` is the return code of `sensors_init`. The exit status is `none`
while the monitor loop has not returned within `passes` passes. -/
def main (conf : Config) (init : Int) (chips : List (Chip × List Feature)) (w : World)
    (passes : Nat) : Option Int × List Event :=
  if init ≠ 0 then (some EXIT_FAILURE, [Event.write "sensors_init() failed"])
  else
    let sensors := ScanINASensors chips
    if conf.list_ then (some EXIT_SUCCESS, ListINASensors sensors ++ [Event.cleanup])
    else
      let s := MonitorINASensors conf sensors w passes
      (if s.done then some EXIT_SUCCESS else none, if s.done then s.out ++ [Event.cleanup] else s.out)

/-- The chip of the examples. -/
def chip0 : Chip := { prefix_ := "ina226", path := "/sys/class/hwmon/hwmon0" }

/-- Two sensors of the example chip. -/
def twoSensors : List INASensor :=
  [{ name_ := chip0, feat_nr_ := 0, unit_ := "V", label_ := "ina226-in1" },
   { name_ := chip0, feat_nr_ := 8, unit_ := "W", label_ := "ina226-power1" }]

/-- A world in which reading feature 0 fails with code -1 and every other
feature reads 2.5. -/
def failingWorld : World :=
  { clock := fun _ => "t"
    get_value := fun _ _ nr => if nr = 0 then (-1, Double.finite false 0 0) else (0, Double.finite false 5 (-1)) }

/-- A machine on which libsensors detects one chip, which is not an INA device. -/
def noInaChips : List (Chip × List Feature) :=
  [({ prefix_ := "coretemp", path := "/sys/class/hwmon/hwmon0" },
    [{ name := "temp1", type := FeatureType.other 2,
       subfeatures := [{ type := SubfeatureType.other 512, number := 0 }] }])]

end Lib

/-! # Theorems -/

/-! ## Join -/

theorem copyDelimited_buffer (buffer delimiter : String) (vs : List String) :
    copyDelimited buffer delimiter vs = buffer ++ copyDelimited "" delimiter vs := by
  induction vs generalizing buffer with
  | nil => simp [copyDelimited]
  | cons v vs ih =>
    simp only [copyDelimited]
    rw [ih (buffer ++ v ++ delimiter), ih ("" ++ v ++ delimiter)]
    simp [String.append_assoc]

theorem Join_nil (delimiter : String) : Join [] delimiter = "" := rfl

theorem Join_singleton (v delimiter : String) : Join [v] delimiter = v := by
  simp [Join, copyDelimited]

theorem Join_cons_cons (v w : String) (vs : List String) (delimiter : String) :
    Join (v :: w :: vs) delimiter = v ++ delimiter ++ Join (w :: vs) delimiter := by
  have h : (w :: vs).getLast? = some ((w :: vs).getLast (by simp)) := List.getLast?_eq_getLast _ _
  simp only [Join, List.getLast?_cons_cons, h, List.dropLast_cons₂, copyDelimited]
  rw [copyDelimited_buffer]
  simp [String.append_assoc]

theorem Join_eq_joinSpec (values : List String) (delimiter : String) :
    Join values delimiter = joinSpec delimiter values := by
  induction values with
  | nil => rfl
  | cons v vs ih =>
    cases vs with
    | nil => simp [Join_singleton, joinSpec]
    | cons w ws => rw [Join_cons_cons, ih, joinSpec]

theorem Join_length (values : List String) (delimiter : String) (h : values ≠ []) :
    (Join values delimiter).length
      = (values.map String.length).sum + (values.length - 1) * delimiter.length := by
  induction values with
  | nil => exact absurd rfl h
  | cons v vs ih =>
    cases vs with
    | nil => simp [Join_singleton]
    | cons w ws =>
      rw [Join_cons_cons, String.length_append, String.length_append, ih (by simp)]
      simp only [List.map_cons, List.sum_cons, List.length_cons, Nat.add_sub_cancel]
      ring

theorem splitChars_clean (sep : Char) (cs : List Char) (h : sep ∉ cs) :
    splitChars sep cs = [cs] := by
  induction cs with
  | nil => rfl
  | cons c cs ih =>
    have hc : c ≠ sep := fun e => h (by simp [e])
    have hs : sep ∉ cs := fun e => h (by simp [e])
    simp [splitChars, hc, ih hs]

theorem splitChars_append (sep : Char) (cs rest : List Char) (h : sep ∉ cs) :
    splitChars sep (cs ++ sep :: rest) = cs :: splitChars sep rest := by
  induction cs with
  | nil => simp [splitChars]
  | cons c cs ih =>
    have hc : c ≠ sep := fun e => h (by simp [e])
    have hs : sep ∉ cs := fun e => h (by simp [e])
    simp [splitChars, hc, ih hs]

theorem Join_comma_data (v w : String) (vs : List String) :
    (Join (v :: w :: vs) ",").data = v.data ++ ',' :: (Join (w :: vs) ",").data := by
  rw [Join_cons_cons, String.data_append, String.data_append]
  simp

theorem splitChars_Join (values : List String) (h : values ≠ [])
    (hc : ∀ v ∈ values, ',' ∉ v.data) :
    splitChars ',' (Join values ",").data = values.map String.data := by
  induction values with
  | nil => exact absurd rfl h
  | cons v vs ih =>
    cases vs with
    | nil => simpa [Join_singleton] using splitChars_clean ',' v.data (hc v (by simp))
    | cons w ws =>
      rw [Join_comma_data, splitChars_append _ _ _ (hc v (by simp)),
        ih (by simp) (fun u hu => hc u (List.mem_cons_of_mem _ hu))]
      simp

theorem Split_Join (values : List String) (h : values ≠ [])
    (hc : ∀ v ∈ values, ',' ∉ v.data) :
    Split (Join values ",") ',' = values := by
  unfold Split
  rw [splitChars_Join values h hc, List.map_map]
  have : (String.mk ∘ String.data) = id := by
    funext s
    rfl
  rw [this, List.map_id]

theorem Join_comma_count (values : List String) (h : values ≠ [])
    (hc : ∀ v ∈ values, ',' ∉ v.data) :
    (Join values ",").data.count ',' = values.length - 1 := by
  induction values with
  | nil => exact absurd rfl h
  | cons v vs ih =>
    cases vs with
    | nil => simpa [Join_singleton] using List.count_eq_zero_of_not_mem (hc v (by simp))
    | cons w ws =>
      rw [Join_comma_data, List.count_append, List.count_cons_self,
        ih (by simp) (fun u hu => hc u (List.mem_cons_of_mem _ hu)),
        List.count_eq_zero_of_not_mem (hc v (by simp))]
      simp

theorem Join_starts_with_first (v : String) (vs : List String) (delimiter : String) :
    ∃ rest, Join (v :: vs) delimiter = v ++ rest := by
  cases vs with
  | nil => exact ⟨"", by simp [Join_singleton]⟩
  | cons w ws => exact ⟨delimiter ++ Join (w :: ws) delimiter, by rw [Join_cons_cons, String.append_assoc]⟩

theorem Join_ends_with_last (values : List String) (last delimiter : String)
    (h : values.getLast? = some last) :
    ∃ front, Join values delimiter = front ++ last :=
  ⟨copyDelimited "" delimiter values.dropLast, by simp [Join, h]⟩

/-- C9 (amended): `Join` concatenates the elements in order with the delimiter
between each pair of consecutive elements and nowhere else. The empty list gives
the empty string and a one-element list gives that element; the result starts
with the first element and ends with the last one, and for a non-empty list its
length is the total length of the elements plus `k - 1` delimiters. When the
list is NOT EMPTY and no element contains a comma, `Join values ","` holds
exactly `k - 1` commas and splitting it on commas returns the original list. -/
theorem Join_correct (values : List String) (delimiter : String) :
    Join values delimiter = joinSpec delimiter values
    ∧ Join [] delimiter = ""
    ∧ (∀ v, Join [v] delimiter = v)
    ∧ (∀ first rest, values = first :: rest → ∃ tail, Join values delimiter = first ++ tail)
    ∧ (∀ last, values.getLast? = some last → ∃ front, Join values delimiter = front ++ last)
    ∧ (values ≠ [] → (Join values delimiter).length
        = (values.map String.length).sum + (values.length - 1) * delimiter.length)
    ∧ (values ≠ [] → (∀ v ∈ values, ',' ∉ v.data) →
        (Join values ",").data.count ',' = values.length - 1
        ∧ Split (Join values ",") ',' = values) :=
  ⟨Join_eq_joinSpec values delimiter, Join_nil delimiter, fun v => Join_singleton v delimiter,
   fun first rest e => e ▸ Join_starts_with_first first rest delimiter,
   fun last e => Join_ends_with_last values last delimiter e,
   Join_length values delimiter,
   fun h hc => ⟨Join_comma_count values h hc, Split_Join values h hc⟩⟩

/-- Witness for C9: the header of one sensor with two sub-readings. -/
theorem Join_correct_witness :
    (Join ["Time", "ina0-Curr(A)", "ina0-Power(W)"] ",").data.count ',' = 2
    ∧ Split (Join ["Time", "ina0-Curr(A)", "ina0-Power(W)"] ",") ','
        = ["Time", "ina0-Curr(A)", "ina0-Power(W)"] :=
  (Join_correct ["Time", "ina0-Curr(A)", "ina0-Power(W)"] ",").2.2.2.2.2.2 (by decide) (by decide)

/-- C9 as stated fails on the empty list: the empty list and the list holding
one empty string are joined to the same text, so splitting `Join [] ","` gives
one empty field, and no function at all recovers every comma-free list. -/
theorem Join_split_empty_counterexample :
    Split (Join [] ",") ',' = [""]
    ∧ ¬ (∀ values : List String, (∀ v ∈ values, ',' ∉ v.data) → Split (Join values ",") ',' = values)
    ∧ ¬ ∃ split : String → List String,
        ∀ values : List String, (∀ v ∈ values, ',' ∉ v.data) → split (Join values ",") = values := by
  refine ⟨by decide, ?_, ?_⟩
  · intro h
    have h0 := h [] (by simp)
    revert h0
    decide
  · rintro ⟨split, h⟩
    have h0 := h [] (by simp)
    have h1 := h [""] (by decide)
    rw [Join_nil] at h0
    rw [Join_singleton] at h1
    rw [h0] at h1
    exact absurd h1 (by decide)


/-! ## The sampling loop -/

theorem wrap32_of_range (z : Int) (h0 : -2147483648 ≤ z) (h1 : z ≤ INT_MAX) : wrap32 z = z := by
  unfold wrap32
  unfold INT_MAX at h1
  omega

theorem written_append (a b : List Event) : written (a ++ b) = written a ++ written b := by
  induction a with
  | nil => rfl
  | cons e es ih => cases e <;> simp [written, ih]

theorem written_ticksTrace (conf : Config) (row : Nat → List String × List Event)
    (hrow : ∀ t, written (row t).2 = []) (k : Nat) :
    written (ticksTrace conf row k) = (List.range k).map (fun t => Join (row t).1 ",") := by
  induction k with
  | zero => rfl
  | succ k ih =>
    simp [ticksTrace, tickEvents, written_append, ih, hrow, written, List.range_succ]

theorem monitor_succ (conf : Config) (header : List String) (row : Nat → List String × List Event)
    (p : Nat) :
    monitor conf header row (p + 1) = loopPass conf row (monitor conf header row p) := by
  unfold monitor
  rw [Function.iterate_succ_apply']

theorem monitor_out (conf : Config) (header : List String) (row : Nat → List String × List Event)
    (p : Nat) :
    (monitor conf header row p).out
      = Event.write (Join header ",") :: ticksTrace conf row (monitor conf header row p).tick := by
  induction p with
  | zero => rfl
  | succ p ih =>
    rw [monitor_succ]
    unfold loopPass
    split
    · exact ih
    · split
      · split
        · exact ih
        · simp [loopBody, ih, ticksTrace, tickEvents]
      · simp [loopBody, ih, ticksTrace, tickEvents]

theorem monitor_running_bounded (conf : Config) (header : List String)
    (row : Nat → List String × List Event) (n : Nat) (hc : conf.max_iter_ = (n : Int))
    (hn : (n : Int) ≤ INT_MAX) (k : Nat) (hk : k ≤ n) :
    monitor conf header row k
      = { iter := (k : Int), tick := k,
          out := Event.write (Join header ",") :: ticksTrace conf row k,
          overflow := false, done := false } := by
  induction k with
  | zero => rfl
  | succ k ih =>
    have hk1 : k ≤ n := by omega
    rw [monitor_succ, ih hk1]
    have h0 : (0 : Int) ≤ conf.max_iter_ := by rw [hc]; omega
    have hlt : ¬ conf.max_iter_ ≤ (k : Int) := by rw [hc]; omega
    have hw : wrap32 ((k : Int) + 1) = (k : Int) + 1 :=
      wrap32_of_range _ (by omega) (by omega)
    have hov : ¬ INT_MAX < (k : Int) + 1 := by omega
    simp [loopPass, loopBody, h0, hlt, hw, hov, ticksTrace, tickEvents]

theorem loopPass_done (conf : Config) (row : Nat → List String × List Event) (s : LoopState)
    (h : s.done = true) : loopPass conf row s = s := by
  simp [loopPass, h]

theorem monitor_returned_bounded (conf : Config) (header : List String)
    (row : Nat → List String × List Event) (n : Nat) (hc : conf.max_iter_ = (n : Int))
    (hn : (n : Int) ≤ INT_MAX) (j : Nat) :
    monitor conf header row (n + 1 + j)
      = { iter := wrap32 ((n : Int) + 1), tick := n,
          out := Event.write (Join header ",") :: ticksTrace conf row n,
          overflow := decide (INT_MAX < (n : Int) + 1), done := true } := by
  induction j with
  | zero =>
    rw [Nat.add_zero, monitor_succ, monitor_running_bounded conf header row n hc hn n (le_refl n)]
    have h0 : (0 : Int) ≤ conf.max_iter_ := by rw [hc]; omega
    have hle : conf.max_iter_ ≤ (n : Int) := by rw [hc]
    simp [loopPass, h0, hle]
  | succ j ih =>
    rw [← Nat.add_assoc, monitor_succ, ih, loopPass_done _ _ _ rfl]

theorem monitor_running_unbounded (conf : Config) (header : List String)
    (row : Nat → List String × List Event) (hc : conf.max_iter_ < 0) (k : Nat) :
    monitor conf header row k
      = { iter := 0, tick := k,
          out := Event.write (Join header ",") :: ticksTrace conf row k,
          overflow := false, done := false } := by
  induction k with
  | zero => rfl
  | succ k ih =>
    rw [monitor_succ, ih]
    have h0 : ¬ (0 : Int) ≤ conf.max_iter_ := by omega
    simp [loopPass, loopBody, h0, ticksTrace, tickEvents]

theorem monitor_no_overflow_below_max (conf : Config) (header : List String)
    (row : Nat → List String × List Event) (n : Nat) (hc : conf.max_iter_ = (n : Int))
    (hn : (n : Int) < INT_MAX) (p : Nat) :
    (monitor conf header row p).overflow = false
    ∧ 0 ≤ (monitor conf header row p).iter ∧ (monitor conf header row p).iter ≤ INT_MAX := by
  have hn1 : (n : Int) ≤ INT_MAX := by omega
  unfold INT_MAX at hn
  rcases Nat.lt_or_ge n p with h | h
  · obtain ⟨j, rfl⟩ : ∃ j, p = n + 1 + j := ⟨p - (n + 1), by omega⟩
    rw [monitor_returned_bounded conf header row n hc hn1 j]
    have hw : wrap32 ((n : Int) + 1) = (n : Int) + 1 :=
      wrap32_of_range _ (by omega) (by unfold INT_MAX; omega)
    simp only [hw]
    refine ⟨?_, by omega, by unfold INT_MAX; omega⟩
    simp [INT_MAX]
    omega
  · rw [monitor_running_bounded conf header row n hc hn1 p h]
    exact ⟨rfl, by simp, by simp only; unfold INT_MAX; omega⟩


/-! ## Header and rows -/

namespace Fs

theorem headerStep_eq (values : List String) (sensor : INASensor) :
    headerStep values sensor = values ++ columnsOf sensor := by
  unfold headerStep columnsOf
  cases sensor.path_current_.isSome <;> cases sensor.path_voltage_.isSome <;>
    cases sensor.path_power_.isSome <;> simp

theorem foldl_headerStep (values : List String) (sensors : List INASensor) :
    sensors.foldl headerStep values = values ++ sensorColumns sensors := by
  induction sensors generalizing values with
  | nil => simp [sensorColumns]
  | cons s ss ih => simp [List.foldl_cons, ih, headerStep_eq, sensorColumns]

theorem headerColumns_eq (sensors : List INASensor) :
    headerColumns sensors = "Time" :: sensorColumns sensors := by
  simp [headerColumns, foldl_headerStep]

theorem columnsOf_length (sensor : INASensor) : (columnsOf sensor).length = presentCount sensor := by
  unfold columnsOf presentCount
  cases sensor.path_current_.isSome <;> cases sensor.path_voltage_.isSome <;>
    cases sensor.path_power_.isSome <;> simp

theorem sensorColumns_length (sensors : List INASensor) :
    (sensorColumns sensors).length = (sensors.map presentCount).sum := by
  induction sensors with
  | nil => rfl
  | cons s ss ih => simp [sensorColumns, ih, columnsOf_length]

theorem pushReading_eq (w : World) (t divisor : Nat) (path : Option String)
    (acc : List String × List Event) :
    pushReading w t divisor path acc
      = (acc.1 ++ path.toList.map (fieldOf w t divisor), acc.2 ++ path.toList.map Event.read) := by
  cases path <;> simp [pushReading, fieldOf]

theorem rowStep_fst (w : World) (t : Nat) (acc : List String × List Event) (sensor : INASensor) :
    (rowStep w t acc sensor).1 = acc.1 ++ fieldsOf w t sensor := by
  simp [rowStep, pushReading_eq, fieldsOf]

theorem rowStep_written (w : World) (t : Nat) (acc : List String × List Event) (sensor : INASensor) :
    written (rowStep w t acc sensor).2 = written acc.2 := by
  simp only [rowStep, pushReading_eq, written_append]
  cases sensor.path_current_ <;> cases sensor.path_voltage_ <;> cases sensor.path_power_ <;>
    simp [written]

theorem foldl_rowStep_fst (w : World) (t : Nat) (acc : List String × List Event)
    (sensors : List INASensor) :
    (sensors.foldl (rowStep w t) acc).1 = acc.1 ++ sensorFields w t sensors := by
  induction sensors generalizing acc with
  | nil => simp [sensorFields]
  | cons s ss ih => simp [List.foldl_cons, ih, rowStep_fst, sensorFields]

theorem foldl_rowStep_written (w : World) (t : Nat) (acc : List String × List Event)
    (sensors : List INASensor) :
    written (sensors.foldl (rowStep w t) acc).2 = written acc.2 := by
  induction sensors generalizing acc with
  | nil => rfl
  | cons s ss ih => simp [List.foldl_cons, ih, rowStep_written]

theorem rowValues_fst (w : World) (sensors : List INASensor) (t : Nat) :
    (rowValues w sensors t).1 = w.clock t :: sensorFields w t sensors := by
  simp [rowValues, foldl_rowStep_fst]

theorem rowValues_written (w : World) (sensors : List INASensor) (t : Nat) :
    written (rowValues w sensors t).2 = [] := by
  simp [rowValues, foldl_rowStep_written, written]

theorem fieldsOf_length (w : World) (t : Nat) (sensor : INASensor) :
    (fieldsOf w t sensor).length = presentCount sensor := by
  unfold fieldsOf presentCount
  cases sensor.path_current_ <;> cases sensor.path_voltage_ <;> cases sensor.path_power_ <;> simp

theorem sensorFields_length (w : World) (t : Nat) (sensors : List INASensor) :
    (sensorFields w t sensors).length = (sensors.map presentCount).sum := by
  induction sensors with
  | nil => rfl
  | cons s ss ih => simp [sensorFields, ih, fieldsOf_length]

theorem rowValues_length (w : World) (sensors : List INASensor) (t : Nat) :
    (rowValues w sensors t).1.length = (headerColumns sensors).length := by
  rw [rowValues_fst, headerColumns_eq, List.length_cons, List.length_cons,
    sensorFields_length, sensorColumns_length]

end Fs

namespace Lib

theorem foldl_header_lib (values : List String) (sensors : List INASensor) :
    sensors.foldl (fun values sensor => values ++ [sensor.label_ ++ "(" ++ sensor.unit_ ++ ")"]) values
      = values ++ sensors.map (fun sensor => sensor.label_ ++ "(" ++ sensor.unit_ ++ ")") := by
  induction sensors generalizing values with
  | nil => simp
  | cons s ss ih => simp [List.foldl_cons, ih]

theorem headerColumns_eq_lib (sensors : List INASensor) :
    headerColumns sensors
      = "Time" :: sensors.map (fun sensor => sensor.label_ ++ "(" ++ sensor.unit_ ++ ")") := by
  simp [headerColumns, foldl_header_lib]

theorem foldl_rowStep_fst_lib (w : World) (t : Nat) (acc : List String × List Event)
    (sensors : List INASensor) :
    (sensors.foldl (rowStep w t) acc).1
      = acc.1 ++ sensors.map (fun sensor =>
          if (w.get_value t sensor.name_ sensor.feat_nr_).1 ≠ 0 then ""
          else to_string (w.get_value t sensor.name_ sensor.feat_nr_).2) := by
  induction sensors generalizing acc with
  | nil => simp
  | cons s ss ih => simp [List.foldl_cons, ih, rowStep]

theorem foldl_rowStep_written_lib (w : World) (t : Nat) (acc : List String × List Event)
    (sensors : List INASensor) :
    written (sensors.foldl (rowStep w t) acc).2 = written acc.2 := by
  induction sensors generalizing acc with
  | nil => rfl
  | cons s ss ih => simp [List.foldl_cons, ih, rowStep, written_append, written]

theorem rowValues_fst_lib (w : World) (sensors : List INASensor) (t : Nat) :
    (rowValues w sensors t).1
      = w.clock t :: sensors.map (fun sensor =>
          if (w.get_value t sensor.name_ sensor.feat_nr_).1 ≠ 0 then ""
          else to_string (w.get_value t sensor.name_ sensor.feat_nr_).2) := by
  simp [rowValues, foldl_rowStep_fst_lib]

theorem rowValues_written_lib (w : World) (sensors : List INASensor) (t : Nat) :
    written (rowValues w sensors t).2 = [] := by
  simp [rowValues, foldl_rowStep_written_lib, written]

theorem rowValues_length_lib (w : World) (sensors : List INASensor) (t : Nat) :
    (rowValues w sensors t).1.length = (headerColumns sensors).length := by
  simp [rowValues_fst_lib, headerColumns_eq_lib]

theorem rowValues_failed_lib (w : World) (sensors : List INASensor) (t i : Nat)
    (h : i < sensors.length)
    (hfail : (w.get_value t (sensors.get ⟨i, h⟩).name_ (sensors.get ⟨i, h⟩).feat_nr_).1 ≠ 0) :
    (rowValues w sensors t).1[i + 1]? = some "" := by
  rw [rowValues_fst_lib, List.getElem?_cons_succ, List.getElem?_map, List.getElem?_eq_getElem h]
  simp only [List.get_eq_getElem] at hfail
  simp [hfail]

end Lib

/-- C1 (amended): in `MonitorINASensors` of both programs, for every sensor
list, every world and every tick, the list of fields joined into the row has
exactly the length of the list of columns joined into the header, whatever the
backend reads return: a read that fails still contributes exactly one field. In
the libsensors program that field is the empty string. (Nothing is said here
about the content of the field of a failed read in the filesystem program.) -/
theorem row_length_eq_header_length :
    (∀ (sensors : List Fs.INASensor) (w : Fs.World) (t : Nat),
      (Fs.rowValues w sensors t).1.length = (Fs.headerColumns sensors).length)
    ∧ (∀ (sensors : List Lib.INASensor) (w : Lib.World) (t : Nat),
      (Lib.rowValues w sensors t).1.length = (Lib.headerColumns sensors).length)
    ∧ (∀ (sensors : List Lib.INASensor) (w : Lib.World) (t i : Nat) (h : i < sensors.length),
      (w.get_value t (sensors.get ⟨i, h⟩).name_ (sensors.get ⟨i, h⟩).feat_nr_).1 ≠ 0 →
      (Lib.rowValues w sensors t).1[i + 1]? = some "") :=
  ⟨fun sensors w t => Fs.rowValues_length w sensors t,
   fun sensors w t => Lib.rowValues_length_lib w sensors t,
   fun sensors w t i h hfail => Lib.rowValues_failed_lib w sensors t i h hfail⟩

/-- Witness for C1: two libsensors sensors, the read of the first one fails. -/
theorem row_length_eq_header_length_witness :
    (Lib.rowValues Lib.failingWorld Lib.twoSensors 0).1[0 + 1]? = some "" :=
  row_length_eq_header_length.2.2 Lib.twoSensors Lib.failingWorld 0 0 (by decide) (by decide)

/-- C1 as stated fails in the filesystem program: the current file of `ina0`
holds `n/a`, which does not parse as an integer, and the field of that read is
`0.000000`, not the empty string. -/
theorem failed_read_field_not_empty_counterexample :
    Fs.garbledWorld.file 0 "/sys/class/hwmon/hwmon0/curr1_input" = Fs.FileState.content "n/a\n"
    ∧ (Fs.rowValues Fs.garbledWorld [Fs.ina0] 0).1 = ["t0", "0.000000", "0.000000"]
    ∧ (Fs.rowValues Fs.garbledWorld [Fs.ina0] 0).1[1]? ≠ some "" := by
  decide


/-! ## The header, the rows and the iteration bound -/

/-- C2: in the filesystem program the header is the column list `Time` followed,
for each sensor in list order, by `name-Curr(A)` when the current path is
present, then `name-Voltage(V)` when the voltage path is present, then
`name-Power(W)` when the power path is present; the number of columns is one
plus the number of present sub-readings of all sensors; the joined list is the
first thing `MonitorINASensors` writes; and a sensor named `ina0` with current
and power present and voltage absent gives `Time,ina0-Curr(A),ina0-Power(W)`. -/
theorem header_columns_correct (sensors : List Fs.INASensor) :
    Fs.headerColumns sensors = "Time" :: Fs.sensorColumns sensors
    ∧ (Fs.headerColumns sensors).length = 1 + (sensors.map Fs.presentCount).sum
    ∧ (∀ (conf : Config) (w : Fs.World) (passes : Nat),
        (Fs.MonitorINASensors conf sensors w passes).out.head?
          = some (Event.write (Join (Fs.headerColumns sensors) ",")))
    ∧ (∀ base pc pp : String,
        Join (Fs.headerColumns [⟨base, "ina0", some pc, none, some pp⟩]) ","
          = "Time,ina0-Curr(A),ina0-Power(W)") := by
  refine ⟨Fs.headerColumns_eq sensors, ?_, ?_, ?_⟩
  · rw [Fs.headerColumns_eq, List.length_cons, Fs.sensorColumns_length, Nat.add_comm]
  · intro conf w passes
    unfold Fs.MonitorINASensors
    rw [monitor_out]
    rfl
  · intro base pc pp
    rfl

/-- C3 (amended): for one sensor named `ina0` whose current file reads the raw
integer 150000, whose voltage is unavailable and whose power file reads the raw
integer 2500000, every row of `MonitorINASensors` is the timestamp followed by
exactly the two fields `150.000000` (150000 divided by `1e3`) and `2.500000`
(2500000 divided by `1e6`), and the header is `Time,ina0-Curr(A),ina0-Power(W)`. -/
theorem scenario_rows (w : Fs.World) (base pc pp : String)
    (hcur : ∀ t, Fs.ReadSensorInt (w.stale t pc) (w.file t pc) = 150000)
    (hpow : ∀ t, Fs.ReadSensorInt (w.stale t pp) (w.file t pp) = 2500000) :
    (∀ t, (Fs.rowValues w [⟨base, "ina0", some pc, none, some pp⟩] t).1
        = [w.clock t, "150.000000", "2.500000"])
    ∧ (∀ (conf : Config) (passes : Nat),
        written (Fs.MonitorINASensors conf [⟨base, "ina0", some pc, none, some pp⟩] w passes).out
          = "Time,ina0-Curr(A),ina0-Power(W)"
            :: (List.range (Fs.MonitorINASensors conf [⟨base, "ina0", some pc, none, some pp⟩] w
                  passes).tick).map
                (fun t => Join [w.clock t, "150.000000", "2.500000"] ",")) := by
  have hrow : ∀ t, (Fs.rowValues w [⟨base, "ina0", some pc, none, some pp⟩] t).1
      = [w.clock t, "150.000000", "2.500000"] := by
    intro t
    have h1 : to_string (intDivDouble 150000 1000) = "150.000000" := by decide
    have h2 : to_string (intDivDouble 2500000 1000000) = "2.500000" := by decide
    simp [Fs.rowValues_fst, Fs.sensorFields, Fs.fieldsOf, Fs.fieldOf, hcur t, hpow t, h1, h2]
  refine ⟨hrow, ?_⟩
  intro conf passes
  unfold Fs.MonitorINASensors
  rw [monitor_out, written, written_ticksTrace _ _ (Fs.rowValues_written w _)]
  have hh : Join (Fs.headerColumns [⟨base, "ina0", some pc, none, some pp⟩]) ","
      = "Time,ina0-Curr(A),ina0-Power(W)" := rfl
  rw [hh]
  simp only [hrow]

/-- Witness for C3: the steady world, three rows. -/
theorem scenario_rows_witness :
    written (Fs.MonitorINASensors ⟨100, 3, false⟩ [Fs.ina0] Fs.steadyWorld 4).out
      = "Time,ina0-Curr(A),ina0-Power(W)"
        :: (List.range (Fs.MonitorINASensors ⟨100, 3, false⟩ [Fs.ina0] Fs.steadyWorld 4).tick).map
            (fun t => Join [Fs.steadyWorld.clock t, "150.000000", "2.500000"] ",") :=
  (scenario_rows Fs.steadyWorld "/sys/class/hwmon/hwmon0" "/sys/class/hwmon/hwmon0/curr1_input"
    "/sys/class/hwmon/hwmon0/power1_input" (fun _ => rfl) (fun _ => rfl)).2
    ⟨100, 3, false⟩ 4

/-- C3 as stated fails: with the current file reading 150000 and the power file
reading 2500000 the row is the timestamp, `150.000000` and `2.500000`; the
current field is not `0.150000`. -/
theorem scenario_current_field_counterexample :
    Fs.ReadSensorInt 0 (Fs.steadyWorld.file 0 "/sys/class/hwmon/hwmon0/curr1_input") = 150000
    ∧ Fs.ReadSensorInt 0 (Fs.steadyWorld.file 0 "/sys/class/hwmon/hwmon0/power1_input") = 2500000
    ∧ (Fs.rowValues Fs.steadyWorld [Fs.ina0] 0).1 = ["t0", "150.000000", "2.500000"]
    ∧ (Fs.rowValues Fs.steadyWorld [Fs.ina0] 0).1 ≠ ["t0", "0.150000", "2.500000"] := by
  decide

/-- C4: with `max_iter_ = n >= 0` (an `int`), `MonitorINASensors` of either
program writes the header first and once, then exactly the rows of the ticks
`0, ..., n - 1`, and has returned after `n + 1` passes of its loop (and not
before); for `n = 0` its whole trace is the header line: no row, no backend
read, no sleep. -/
theorem MonitorINASensors_bounded (conf : Config) (n : Nat) (hc : conf.max_iter_ = (n : Int))
    (hn : (n : Int) ≤ INT_MAX) (passes : Nat) (hp : n + 1 ≤ passes) :
    (∀ (sensors : List Fs.INASensor) (w : Fs.World),
      (Fs.MonitorINASensors conf sensors w passes).done = true
      ∧ (Fs.MonitorINASensors conf sensors w passes).out
          = Event.write (Join (Fs.headerColumns sensors) ",")
            :: ticksTrace conf (Fs.rowValues w sensors) n
      ∧ written (Fs.MonitorINASensors conf sensors w passes).out
          = Join (Fs.headerColumns sensors) ","
            :: (List.range n).map (fun t => Join (Fs.rowValues w sensors t).1 ",")
      ∧ (∀ k, k ≤ n → (Fs.MonitorINASensors conf sensors w k).done = false)
      ∧ (n = 0 → (Fs.MonitorINASensors conf sensors w passes).out
          = [Event.write (Join (Fs.headerColumns sensors) ",")]))
    ∧ (∀ (sensors : List Lib.INASensor) (w : Lib.World),
      (Lib.MonitorINASensors conf sensors w passes).done = true
      ∧ (Lib.MonitorINASensors conf sensors w passes).out
          = Event.write (Join (Lib.headerColumns sensors) ",")
            :: ticksTrace conf (Lib.rowValues w sensors) n
      ∧ written (Lib.MonitorINASensors conf sensors w passes).out
          = Join (Lib.headerColumns sensors) ","
            :: (List.range n).map (fun t => Join (Lib.rowValues w sensors t).1 ",")
      ∧ (∀ k, k ≤ n → (Lib.MonitorINASensors conf sensors w k).done = false)
      ∧ (n = 0 → (Lib.MonitorINASensors conf sensors w passes).out
          = [Event.write (Join (Lib.headerColumns sensors) ",")])) := by
  obtain ⟨j, rfl⟩ : ∃ j, passes = n + 1 + j := ⟨passes - (n + 1), by omega⟩
  constructor
  · intro sensors w
    unfold Fs.MonitorINASensors
    rw [monitor_returned_bounded conf _ _ n hc hn j]
    refine ⟨rfl, rfl, ?_, ?_, ?_⟩
    · simp only [written]
      rw [written_ticksTrace _ _ (Fs.rowValues_written w sensors)]
    · intro k hk
      rw [monitor_running_bounded conf _ _ n hc hn k hk]
    · intro h0
      subst h0
      rfl
  · intro sensors w
    unfold Lib.MonitorINASensors
    rw [monitor_returned_bounded conf _ _ n hc hn j]
    refine ⟨rfl, rfl, ?_, ?_, ?_⟩
    · simp only [written]
      rw [written_ticksTrace _ _ (Lib.rowValues_written_lib w sensors)]
    · intro k hk
      rw [monitor_running_bounded conf _ _ n hc hn k hk]
    · intro h0
      subst h0
      rfl

/-- Witness for C4: two iterations, run for three passes. -/
theorem MonitorINASensors_bounded_witness :
    written (Fs.MonitorINASensors ⟨100, 2, false⟩ [Fs.ina0] Fs.steadyWorld 3).out
      = Join (Fs.headerColumns [Fs.ina0]) ","
        :: (List.range 2).map (fun t => Join (Fs.rowValues Fs.steadyWorld [Fs.ina0] t).1 ",") :=
  ((MonitorINASensors_bounded ⟨100, 2, false⟩ 2 rfl (by decide) 3 (by decide)).1
    [Fs.ina0] Fs.steadyWorld).2.2.1

/-- C5 (the code at the failing input): the current file of `ina0` cannot be
opened in tick 3 only. The run goes on and every other field is the converted
value, but the field of the failed read is `0.007000`, the rendering of the
uninitialised `x` (7 here), not the empty string. -/
theorem transient_failure_field :
    Fs.transientWorld.file 3 "/sys/class/hwmon/hwmon0/curr1_input" = Fs.FileState.unopenable
    ∧ written (Fs.MonitorINASensors ⟨100, 5, false⟩ [Fs.ina0] Fs.transientWorld 6).out
      = ["Time,ina0-Curr(A),ina0-Power(W)",
         "t0,150.000000,2.500000",
         "t1,150.000000,2.500000",
         "t2,150.000000,2.500000",
         "t3,0.007000,2.500000",
         "t4,150.000000,2.500000"] := by
  decide

/-- The field of a filesystem read is never empty, whatever was read. -/
theorem Fs.fieldOf_ne_empty (w : Fs.World) (t divisor : Nat) (p : String) :
    Fs.fieldOf w t divisor p ≠ "" := by
  intro h
  have hd := congrArg String.data h
  unfold Fs.fieldOf intDivDouble at hd
  split at hd <;> simp [to_string, String.data_append] at hd

/-- C10 (the code at the failing input): with `max_iter_ = INT_MAX` the test
that breaks the loop evaluates `iter++` with `iter = INT_MAX`: the increment
leaves the range of `int` (the register wraps to `-2^31`), in both programs. -/
theorem iter_overflow_at_INT_MAX :
    (Fs.MonitorINASensors ⟨0, 2147483647, false⟩ [Fs.ina0] Fs.steadyWorld 2147483648).overflow = true
    ∧ (Fs.MonitorINASensors ⟨0, 2147483647, false⟩ [Fs.ina0] Fs.steadyWorld 2147483648).iter
        = -2147483648
    ∧ (Lib.MonitorINASensors ⟨0, 2147483647, false⟩ Lib.twoSensors Lib.failingWorld
        2147483648).overflow = true
    ∧ (Lib.MonitorINASensors ⟨0, 2147483647, false⟩ Lib.twoSensors Lib.failingWorld
        2147483648).iter = -2147483648 := by
  have hp : (2147483648 : Nat) = 2147483647 + 1 + 0 := rfl
  unfold Fs.MonitorINASensors Lib.MonitorINASensors
  rw [hp, monitor_returned_bounded ⟨0, 2147483647, false⟩ _ _ 2147483647 rfl (by decide) 0,
    monitor_returned_bounded ⟨0, 2147483647, false⟩ _ _ 2147483647 rfl (by decide) 0]
  decide

/-- In unbounded mode (`max_iter_ < 0`) the counter is never incremented and the
loop never breaks: after `k` passes exactly `k` rows have been written. -/
theorem unbounded_never_breaks (conf : Config) (hc : conf.max_iter_ < 0) (k : Nat) :
    (∀ (sensors : List Fs.INASensor) (w : Fs.World),
      (Fs.MonitorINASensors conf sensors w k).iter = 0
      ∧ (Fs.MonitorINASensors conf sensors w k).overflow = false
      ∧ (Fs.MonitorINASensors conf sensors w k).done = false
      ∧ written (Fs.MonitorINASensors conf sensors w k).out
          = Join (Fs.headerColumns sensors) ","
            :: (List.range k).map (fun t => Join (Fs.rowValues w sensors t).1 ","))
    ∧ (∀ (sensors : List Lib.INASensor) (w : Lib.World),
      (Lib.MonitorINASensors conf sensors w k).iter = 0
      ∧ (Lib.MonitorINASensors conf sensors w k).overflow = false
      ∧ (Lib.MonitorINASensors conf sensors w k).done = false
      ∧ written (Lib.MonitorINASensors conf sensors w k).out
          = Join (Lib.headerColumns sensors) ","
            :: (List.range k).map (fun t => Join (Lib.rowValues w sensors t).1 ",")) := by
  constructor
  · intro sensors w
    unfold Fs.MonitorINASensors
    rw [monitor_running_unbounded conf _ _ hc k]
    refine ⟨rfl, rfl, rfl, ?_⟩
    simp only [written]
    rw [written_ticksTrace _ _ (Fs.rowValues_written w sensors)]
  · intro sensors w
    unfold Lib.MonitorINASensors
    rw [monitor_running_unbounded conf _ _ hc k]
    refine ⟨rfl, rfl, rfl, ?_⟩
    simp only [written]
    rw [written_ticksTrace _ _ (Lib.rowValues_written_lib w sensors)]


/-! ## Discovery -/

namespace Fs

theorem rfind_zero_iff (s pat : String) :
    rfind s pat 0 = some 0 ↔ pat.data.isPrefixOf s.data = true := by
  unfold rfind
  by_cases hlen : pat.length ≤ s.length
  · simp [hlen, rfindFrom]
  · have hnp : ¬ pat.data <+: s.data := fun hp => hlen hp.length_le
    have hfalse : pat.data.isPrefixOf s.data ≠ true := fun hp =>
      hnp (List.isPrefixOf_iff_prefix.mp hp)
    simp [hlen, hfalse]

theorem probe_isSome (snap : Snapshot) (dir file : String) :
    (probe snap dir file).isSome = snap.is_regular_file (pathAppend dir file) := by
  unfold probe
  cases snap.is_regular_file (pathAppend dir file) <;> simp

theorem scanStep_eq (snap : Snapshot) (sensors : List INASensor) (dir : String) :
    scanStep snap sensors dir
      = sensors ++ (if keeps snap dir then [sensorOf snap dir] else []) := by
  unfold scanStep keeps
  cases hd : snap.is_directory dir
  · simp
  · by_cases hp : "ina".data.isPrefixOf (sensorName snap dir).data = true
    · have hr : rfind (sensorName snap dir) "ina" 0 = some 0 := (rfind_zero_iff _ _).mpr hp
      simp only [hr, hp, sensorOf, probe_isSome]
      cases snap.is_regular_file (pathAppend dir "curr1_input") <;>
        cases snap.is_regular_file (pathAppend dir "in2_input") <;>
        cases snap.is_regular_file (pathAppend dir "power1_input") <;> simp
    · have hr : rfind (sensorName snap dir) "ina" 0 ≠ some 0 := fun h =>
        hp ((rfind_zero_iff _ _).mp h)
      have hp2 : "ina".data.isPrefixOf (sensorName snap dir).data = false :=
        Bool.eq_false_iff.mpr hp
      simp only [sensorOf, hp2]
      simp [hr]

theorem foldl_scanStep (snap : Snapshot) (sensors : List INASensor) (entries : List String) :
    entries.foldl (scanStep snap) sensors
      = sensors ++ (entries.filter (keeps snap)).map (sensorOf snap) := by
  induction entries generalizing sensors with
  | nil => simp
  | cons d ds ih =>
    rw [List.foldl_cons, ih, scanStep_eq]
    cases hk : keeps snap d <;> simp [List.filter_cons, hk]

theorem ScanINASensors_eq (snap : Snapshot) :
    ScanINASensors snap = (retained snap).insertionSort INASensor.le := by
  unfold ScanINASensors retained
  rw [foldl_scanStep, List.nil_append]

theorem ScanINASensors_perm (snap : Snapshot) : (ScanINASensors snap).Perm (retained snap) := by
  rw [ScanINASensors_eq]
  exact List.perm_insertionSort _ _

theorem INASensor.le_iff (lhs rhs : INASensor) :
    INASensor.le lhs rhs ↔ lhs.path_base_.data ≤ rhs.path_base_.data := by
  unfold INASensor.le INASensor.lt
  exact not_lt

theorem sensor_le_total : IsTotal INASensor INASensor.le :=
  ⟨fun a b => by rw [INASensor.le_iff, INASensor.le_iff]; exact le_total _ _⟩

theorem sensor_le_trans : IsTrans INASensor INASensor.le :=
  ⟨fun a b c => by rw [INASensor.le_iff, INASensor.le_iff, INASensor.le_iff]; exact le_trans⟩

theorem sensor_lt_antisymm : IsAntisymm INASensor INASensor.lt :=
  ⟨fun a b hab hba => absurd hba (by unfold INASensor.lt at *; exact not_lt_of_gt hab)⟩

theorem ScanINASensors_sorted (snap : Snapshot) : List.Sorted INASensor.le (ScanINASensors snap) := by
  rw [ScanINASensors_eq]
  haveI := sensor_le_total
  haveI := sensor_le_trans
  exact List.sorted_insertionSort _ _

theorem retained_paths (snap : Snapshot) :
    (retained snap).map INASensor.path_base_ = snap.entries.filter (keeps snap) := by
  unfold retained
  rw [List.map_map]
  have : (INASensor.path_base_ ∘ sensorOf snap) = id := by
    funext d
    rfl
  rw [this, List.map_id]

theorem strictly_sorted (l : List INASensor) (hs : List.Sorted INASensor.le l)
    (hn : (l.map INASensor.path_base_).Nodup) : List.Sorted INASensor.lt l := by
  have hne : List.Pairwise (fun a b : INASensor => a.path_base_ ≠ b.path_base_) l :=
    List.pairwise_map.mp hn
  refine (List.Pairwise.and hs hne).imp ?_
  intro a b h
  have hle : a.path_base_.data ≤ b.path_base_.data := (INASensor.le_iff a b).mp h.1
  have hd : a.path_base_.data ≠ b.path_base_.data := fun e => h.2 (String.ext e)
  exact lt_of_le_of_ne hle hd

theorem sorted_perm_unique (snap : Snapshot) (hn : snap.entries.Nodup) (out : List INASensor)
    (hp : out.Perm (retained snap)) (hs : List.Sorted INASensor.le out) :
    out = ScanINASensors snap := by
  have hnr : ((retained snap).map INASensor.path_base_).Nodup := by
    rw [retained_paths]
    exact hn.filter _
  have h1 : List.Sorted INASensor.lt out :=
    strictly_sorted out hs ((hp.map _).nodup_iff.mpr hnr)
  have h2 : List.Sorted INASensor.lt (ScanINASensors snap) :=
    strictly_sorted _ (ScanINASensors_sorted snap)
      (((ScanINASensors_perm snap).map _).nodup_iff.mpr hnr)
  haveI := sensor_lt_antisymm
  exact List.eq_of_perm_of_sorted (hp.trans (ScanINASensors_perm snap).symm) h1 h2

theorem retained_reordered (snap : Snapshot) (entries : List String)
    (hp : snap.entries.Perm entries) :
    (retained (snap.reordered entries)).Perm (retained snap) := by
  unfold retained Snapshot.reordered
  exact ((hp.filter _).map _).symm

theorem ScanINASensors_reordered (snap : Snapshot) (entries : List String)
    (hp : snap.entries.Perm entries) (hn : snap.entries.Nodup) :
    ScanINASensors (snap.reordered entries) = ScanINASensors snap :=
  sorted_perm_unique snap hn _
    ((ScanINASensors_perm _).trans (retained_reordered snap entries hp))
    (ScanINASensors_sorted _)

theorem mem_retained (snap : Snapshot) (sensor : INASensor) :
    sensor ∈ retained snap ↔ ∃ dir ∈ snap.entries, keeps snap dir = true ∧ sensorOf snap dir = sensor := by
  unfold retained
  simp only [List.mem_map, List.mem_filter]
  constructor
  · rintro ⟨d, ⟨hd, hk⟩, rfl⟩
    exact ⟨d, hd, hk, rfl⟩
  · rintro ⟨d, hd, hk, rfl⟩
    exact ⟨d, ⟨hd, hk⟩, rfl⟩

theorem keeps_iff (snap : Snapshot) (dir : String) :
    keeps snap dir = true ↔
      snap.is_directory dir = true
      ∧ "ina".data <+: (sensorName snap dir).data
      ∧ (snap.is_regular_file (pathAppend dir "curr1_input") = true
          ∨ snap.is_regular_file (pathAppend dir "in2_input") = true
          ∨ snap.is_regular_file (pathAppend dir "power1_input") = true) := by
  unfold keeps
  rw [Bool.and_eq_true, Bool.and_eq_true, List.isPrefixOf_iff_prefix, Bool.or_eq_true,
    Bool.or_eq_true, and_assoc, or_assoc]

end Fs


/-- C6: `ScanINASensors` of the filesystem program returns exactly the
directory entries that are directories, whose name begins with `ina` and that
have at least one of the files `curr1_input`, `in2_input`, `power1_input`: the
result is a rearrangement of the sensors of those entries, so none is dropped
and none is added; every returned sensor has a name beginning with `ina` and
not all three paths absent; and each optional path is present exactly when the
corresponding file is a regular file. -/
theorem ScanINASensors_exact (snap : Fs.Snapshot) :
    (Fs.ScanINASensors snap).Perm (Fs.retained snap)
    ∧ (∀ sensor, sensor ∈ Fs.ScanINASensors snap ↔
        ∃ dir ∈ snap.entries,
          snap.is_directory dir = true
          ∧ "ina".data <+: (Fs.sensorName snap dir).data
          ∧ (snap.is_regular_file (Fs.pathAppend dir "curr1_input") = true
              ∨ snap.is_regular_file (Fs.pathAppend dir "in2_input") = true
              ∨ snap.is_regular_file (Fs.pathAppend dir "power1_input") = true)
          ∧ Fs.sensorOf snap dir = sensor)
    ∧ (∀ sensor ∈ Fs.ScanINASensors snap,
        "ina".data <+: sensor.name_.data
        ∧ ¬ (sensor.path_current_ = none ∧ sensor.path_voltage_ = none ∧ sensor.path_power_ = none)
        ∧ (sensor.path_current_.isSome = true ↔
            snap.is_regular_file (Fs.pathAppend sensor.path_base_ "curr1_input") = true)
        ∧ (sensor.path_voltage_.isSome = true ↔
            snap.is_regular_file (Fs.pathAppend sensor.path_base_ "in2_input") = true)
        ∧ (sensor.path_power_.isSome = true ↔
            snap.is_regular_file (Fs.pathAppend sensor.path_base_ "power1_input") = true)) := by
  have hmem : ∀ sensor, sensor ∈ Fs.ScanINASensors snap ↔
      ∃ dir ∈ snap.entries,
        snap.is_directory dir = true
        ∧ "ina".data <+: (Fs.sensorName snap dir).data
        ∧ (snap.is_regular_file (Fs.pathAppend dir "curr1_input") = true
            ∨ snap.is_regular_file (Fs.pathAppend dir "in2_input") = true
            ∨ snap.is_regular_file (Fs.pathAppend dir "power1_input") = true)
        ∧ Fs.sensorOf snap dir = sensor := by
    intro sensor
    rw [(Fs.ScanINASensors_perm snap).mem_iff, Fs.mem_retained]
    constructor
    · rintro ⟨d, hd, hk, he⟩
      obtain ⟨h1, h2, h3⟩ := (Fs.keeps_iff snap d).mp hk
      exact ⟨d, hd, h1, h2, h3, he⟩
    · rintro ⟨d, hd, h1, h2, h3, he⟩
      exact ⟨d, hd, (Fs.keeps_iff snap d).mpr ⟨h1, h2, h3⟩, he⟩
  refine ⟨Fs.ScanINASensors_perm snap, hmem, ?_⟩
  intro sensor hs
  obtain ⟨d, _, _, hname, hfile, rfl⟩ := (hmem sensor).mp hs
  refine ⟨hname, ?_, ?_, ?_, ?_⟩
  · rintro ⟨hc, hv, hp⟩
    have hc1 := Fs.probe_isSome snap d "curr1_input"
    have hv1 := Fs.probe_isSome snap d "in2_input"
    have hp1 := Fs.probe_isSome snap d "power1_input"
    simp only [Fs.sensorOf] at hc hv hp
    rw [hc] at hc1
    rw [hv] at hv1
    rw [hp] at hp1
    rcases hfile with h | h | h
    · rw [h] at hc1
      exact absurd hc1 (by decide)
    · rw [h] at hv1
      exact absurd hv1 (by decide)
    · rw [h] at hp1
      exact absurd hp1 (by decide)
  · simp only [Fs.sensorOf, Fs.probe_isSome]
  · simp only [Fs.sensorOf, Fs.probe_isSome]
  · simp only [Fs.sensorOf, Fs.probe_isSome]

/-- Witness for C6: the second sensor of the example backend. -/
theorem ScanINASensors_exact_witness :
    "ina".data <+: "ina226".data
    ∧ ¬ ((none : Option String) = none ∧ some "/sys/class/hwmon/hwmon1/in2_input" = none
          ∧ (none : Option String) = none)
    ∧ ((none : Option String).isSome = true ↔
        Fs.exampleSnapshot.is_regular_file
          (Fs.pathAppend "/sys/class/hwmon/hwmon1" "curr1_input") = true)
    ∧ ((some "/sys/class/hwmon/hwmon1/in2_input").isSome = true ↔
        Fs.exampleSnapshot.is_regular_file
          (Fs.pathAppend "/sys/class/hwmon/hwmon1" "in2_input") = true)
    ∧ ((none : Option String).isSome = true ↔
        Fs.exampleSnapshot.is_regular_file
          (Fs.pathAppend "/sys/class/hwmon/hwmon1" "power1_input") = true) :=
  (ScanINASensors_exact Fs.exampleSnapshot).2.2
    { path_base_ := "/sys/class/hwmon/hwmon1", name_ := "ina226",
      path_current_ := none, path_voltage_ := some "/sys/class/hwmon/hwmon1/in2_input",
      path_power_ := none }
    (by decide)

/-- C7: the list `ScanINASensors` of the filesystem program returns is sorted in
ascending order of the base path; when the directory entries are pairwise
distinct, enumerating the same backend state in any other order yields the
identical sensor list and hence the identical header; and the result is the
only sorted arrangement of the retained sensors, whatever the sorting method. -/
theorem ScanINASensors_order (snap : Fs.Snapshot) :
    List.Sorted (fun a b : Fs.INASensor => a.path_base_.data ≤ b.path_base_.data)
      (Fs.ScanINASensors snap)
    ∧ (∀ entries : List String, snap.entries.Perm entries → snap.entries.Nodup →
        Fs.ScanINASensors (snap.reordered entries) = Fs.ScanINASensors snap
        ∧ Join (Fs.headerColumns (Fs.ScanINASensors (snap.reordered entries))) ","
            = Join (Fs.headerColumns (Fs.ScanINASensors snap)) ",")
    ∧ (∀ out : List Fs.INASensor, snap.entries.Nodup → out.Perm (Fs.retained snap) →
        List.Sorted Fs.INASensor.le out → out = Fs.ScanINASensors snap) := by
  refine ⟨?_, ?_, ?_⟩
  · exact (Fs.ScanINASensors_sorted snap).imp (fun {a b} h => (Fs.INASensor.le_iff a b).mp h)
  · intro entries hp hn
    have h := Fs.ScanINASensors_reordered snap entries hp hn
    exact ⟨h, by rw [h]⟩
  · intro out hn hp hs
    exact Fs.sorted_perm_unique snap hn out hp hs

/-- Witness for C7: the example backend enumerated in two orders. -/
theorem ScanINASensors_order_witness :
    Fs.ScanINASensors (Fs.exampleSnapshot.reordered Fs.exampleReorder)
      = Fs.ScanINASensors Fs.exampleSnapshot
    ∧ Join (Fs.headerColumns (Fs.ScanINASensors (Fs.exampleSnapshot.reordered Fs.exampleReorder))) ","
        = Join (Fs.headerColumns (Fs.ScanINASensors Fs.exampleSnapshot)) "," :=
  (ScanINASensors_order Fs.exampleSnapshot).2.1 Fs.exampleReorder (by decide) (by decide)

/-- In the filesystem program an empty scan result makes `main` exit with
`EXIT_FAILURE` after the diagnostic line, without header or row, whatever the
configuration. -/
theorem fs_main_no_sensors (conf : Config) (snap : Fs.Snapshot) (w : Fs.World) (passes : Nat)
    (h : Fs.ScanINASensors snap = []) :
    Fs.main conf snap w passes = (some EXIT_FAILURE, [Event.write "Power monitor is not found"]) := by
  simp [Fs.main, h]

/-- In the libsensors program an empty scan result does not stop `main`: unless
listing was asked for, `MonitorINASensors` runs, the header `Time` is written
first and the exit status is never `EXIT_FAILURE`. -/
theorem lib_main_no_sensors (conf : Config) (chips : List (Lib.Chip × List Lib.Feature))
    (w : Lib.World) (passes : Nat) (h : Lib.ScanINASensors chips = []) (hl : conf.list_ = false) :
    (Lib.main conf 0 chips w passes).2.head? = some (Event.write "Time")
    ∧ (Lib.main conf 0 chips w passes).1 ≠ some EXIT_FAILURE := by
  have hout := monitor_out conf (Lib.headerColumns []) (Lib.rowValues w []) passes
  have hj : Join (Lib.headerColumns []) "," = "Time" := by decide
  rw [hj] at hout
  have h0 : ¬ ((0 : Int) ≠ 0) := fun hne => hne rfl
  constructor
  · simp only [Lib.main, h, hl, Lib.MonitorINASensors, if_neg h0]
    by_cases hd : (monitor conf (Lib.headerColumns []) (Lib.rowValues w []) passes).done = true
    · simp [hd, hout]
    · simp [hd, hout]
  · simp only [Lib.main, h, hl, Lib.MonitorINASensors, if_neg h0]
    by_cases hd : (monitor conf (Lib.headerColumns []) (Lib.rowValues w []) passes).done = true
    · simp [hd, EXIT_SUCCESS, EXIT_FAILURE]
    · simp [hd]

/-- C8 (the code at the failing input): libsensors detects one chip, `coretemp`,
so discovery returns the empty list; `main` of the libsensors program with
`-n 2` still writes the header `Time` and two rows and exits with status 0,
where `main` of the filesystem program exits with `EXIT_FAILURE`. -/
theorem lib_main_runs_without_sensors :
    Lib.ScanINASensors Lib.noInaChips = []
    ∧ Lib.main ⟨100, 2, false⟩ 0 Lib.noInaChips Lib.failingWorld 3
        = (some EXIT_SUCCESS,
           [Event.write "Time", Event.write "t", Event.sleep 100, Event.write "t", Event.sleep 100,
            Event.cleanup]) := by
  decide

end PowerMonitor
